import Mathlib

/-!
Verification development for the video-game sales dashboard pipeline
(`data_processor.py`, `visualizations.py`, `app.py`).

Shallow embedding conventions:
* A raw table cell that pandas would read as NaN (missing, or non-numeric under
  `pd.to_numeric(errors='coerce')`) is modelled as `none`; numeric cells are
  rationals (`ℚ`), so float arithmetic is modelled exactly.
* `DataFrame`s are lists of records; a pandas boolean-mask row filter is
  `List.filter`; `groupby` enumerates the distinct keys in ascending order
  (pandas sorts group keys) and collects each group's rows in table order.
* pandas sorts are modelled with the stable `List.insertionSort`.  The source
  relies on `sort_values` with the default (unstable) `quicksort`; wherever a
  claim depends only on the multiset of rows or on fields invariant under the
  tie order, this choice is immaterial.
* Python `str.strip` is modelled by `pyStrip` (drop whitespace at both ends);
  `astype(str)` on a string column is the identity.
-/

namespace VG

/-- Python `str.strip`: remove leading and trailing whitespace. -/
def pyStrip (s : String) : String :=
  ⟨((s.data.dropWhile Char.isWhitespace).reverse.dropWhile Char.isWhitespace).reverse⟩

/-- Truncation toward zero: the semantics of numpy `astype(int)` on floats. -/
def truncToInt (q : ℚ) : ℤ := if 0 ≤ q then ⌊q⌋ else ⌈q⌉

/-- Round half to even to the nearest integer (numpy/pandas rounding mode). -/
def rhe (q : ℚ) : ℤ :=
  if q - ⌊q⌋ < 1/2 then ⌊q⌋
  else if 1/2 < q - ⌊q⌋ then ⌊q⌋ + 1
  else if ⌊q⌋ % 2 = 0 then ⌊q⌋ else ⌊q⌋ + 1

/-- pandas `Series.round(2)`: round half to even at two decimal places. -/
def round2 (q : ℚ) : ℚ := (rhe (q * 100) : ℚ) / 100

/-- Codepoint-lexicographic comparison of character lists (Python's string
order restricted to the data appearing in this pipeline). -/
def charListLe : List Char → List Char → Bool
  | [], _ => true
  | _ :: _, [] => false
  | a :: as, b :: bs =>
    if a.val < b.val then true
    else if b.val < a.val then false
    else charListLe as bs

/-- String comparison used for pandas' sorted `groupby` keys. -/
def strLe (a b : String) : Bool := charListLe a.data b.data

/-- `strLe` as a proposition, for `List.insertionSort`. -/
def strLeP (a b : String) : Prop := strLe a b = true

instance : DecidableRel strLeP := fun a b => instDecidableEqBool (strLe a b) true

/-- One row of the raw CSV after pandas' type inference: numeric columns are
`none` exactly when the cell is NaN (missing or non-numeric), string columns
are `none` when missing. -/
structure RawRow where
  rank : Option ℚ
  name : Option String
  platform : Option String
  year : Option ℚ
  genre : Option String
  publisher : Option String
  naSales : Option ℚ
  euSales : Option ℚ
  jpSales : Option ℚ
  otherSales : Option ℚ
  globalSales : Option ℚ
deriving DecidableEq, Repr

/-- One row of the cleaned table (`DataProcessor.clean_data` output, before
derived columns). -/
structure Row where
  rank : Option ℚ
  name : String
  platform : String
  year : ℤ
  genre : String
  publisher : String
  naSales : ℚ
  euSales : ℚ
  jpSales : ℚ
  otherSales : ℚ
  globalSales : ℚ
deriving DecidableEq, Repr

/-- The per-row repairs of `clean_data`: `Year` is coerced to numeric with NaN
as the `0` sentinel and cast to int; sales columns get NaN filled with `0.0`;
string columns get NaN filled with `"Unknown"` and are stripped; `Rank` is
coerced to numeric (NaN kept).  The pandas code interleaves these column-wise
repairs with its row filters, but each filter reads only columns already
repaired at that point, so applying all repairs first is equivalent. -/
def repairRow (r : RawRow) : Row where
  rank := r.rank
  name := pyStrip (r.name.getD "Unknown")
  platform := pyStrip (r.platform.getD "Unknown")
  year := truncToInt (r.year.getD 0)
  genre := pyStrip (r.genre.getD "Unknown")
  publisher := pyStrip (r.publisher.getD "Unknown")
  naSales := r.naSales.getD 0
  euSales := r.euSales.getD 0
  jpSales := r.jpSales.getD 0
  otherSales := r.otherSales.getD 0
  globalSales := r.globalSales.getD 0

/-- Descending order on `Global_Sales`, the key of `clean_data`'s final sort. -/
def salesDesc (a b : Row) : Prop := b.globalSales ≤ a.globalSales

instance : DecidableRel salesDesc :=
  fun a b => inferInstanceAs (Decidable (b.globalSales ≤ a.globalSales))

/-- `DataProcessor.clean_data`: drop rows with missing `Name`/`Global_Sales`,
repair the remaining columns, drop rows with `Year < 1980`, drop rows with
`Global_Sales <= 0`, and sort by `Global_Sales` descending. -/
def clean_data (raw : List RawRow) : List Row :=
  ((((raw.filter fun r => r.name.isSome && r.globalSales.isSome).map repairRow).filter
      fun r => decide (1980 ≤ r.year)).filter
      fun r => decide (0 < r.globalSales)).insertionSort salesDesc

/-- The `Decade` column: `(Year // 10) * 10` rendered as a string with an `s`
suffix, with the `Year == 0` sentinel mapped to `"Unknown"`. -/
def decadeOf (y : ℤ) : String :=
  if y = 0 then "Unknown" else toString (y.fdiv 10 * 10) ++ "s"

/-- pandas `rank(method='dense', ascending=False)` of value `x` within the
multiset `vals`: one more than the number of distinct values strictly above
`x`. -/
def denseRankDesc (vals : List ℚ) (x : ℚ) : ℕ :=
  ((vals.filter fun v => decide (x < v)).dedup).length + 1

/-- The four regional sales columns `NA_Sales, EU_Sales, JP_Sales,
Other_Sales`, in their fixed dataframe order. -/
inductive RegionCol
  | na
  | eu
  | jp
  | other
deriving DecidableEq, Repr

/-- `df[regional_cols].idxmax(axis=1)`: the first column (in the fixed order
NA, EU, JP, Other) attaining the row maximum; the running best is replaced
only by a strictly larger value. -/
def idxmaxRegion (r : Row) : RegionCol :=
  (([(RegionCol.eu, r.euSales), (RegionCol.jp, r.jpSales),
     (RegionCol.other, r.otherSales)].foldl
      (fun best c => if best.2 < c.2 then c else best) (RegionCol.na, r.naSales))).1

/-- The `.map({'NA_Sales': 'North America', ...})` dictionary applied to the
`idxmax` result. -/
def regionDisplay : RegionCol → String
  | .na => "North America"
  | .eu => "Europe"
  | .jp => "Japan"
  | .other => "Other"

/-- `Dominant_Region`: `idxmax` over the four regional columns, mapped to the
display names. -/
def dominant_region (r : Row) : String :=
  regionDisplay (idxmaxRegion r)

/-- A cleaned row together with the derived columns of
`DataProcessor.add_derived_columns`. -/
structure DerivedRow where
  row : Row
  decade : String
  genreRank : ℕ
  platformRank : ℕ
  dominantRegion : String
  naPct : ℚ
  euPct : ℚ
  jpPct : ℚ
  otherPct : ℚ
deriving DecidableEq, Repr

/-- The derived columns for one row of `tbl`. -/
def deriveRow (tbl : List Row) (r : Row) : DerivedRow where
  row := r
  decade := decadeOf r.year
  genreRank :=
    denseRankDesc ((tbl.filter fun x => decide (x.genre = r.genre)).map (·.globalSales))
      r.globalSales
  platformRank :=
    denseRankDesc ((tbl.filter fun x => decide (x.platform = r.platform)).map (·.globalSales))
      r.globalSales
  dominantRegion := dominant_region r
  naPct := round2 (r.naSales / r.globalSales * 100)
  euPct := round2 (r.euSales / r.globalSales * 100)
  jpPct := round2 (r.jpSales / r.globalSales * 100)
  otherPct := round2 (r.otherSales / r.globalSales * 100)

/-- `DataProcessor.add_derived_columns`. -/
def add_derived_columns (tbl : List Row) : List DerivedRow :=
  tbl.map (deriveRow tbl)

/-- The distinct genres in ascending key order (pandas `groupby('Genre')`). -/
def genre_keys (tbl : List Row) : List String :=
  ((tbl.map (·.genre)).dedup).insertionSort strLeP

/-- `filtered_df.groupby('Genre')['Global_Sales'].sum()` as a key-indexed
series. -/
def sum_sales_by_genre (tbl : List Row) : List (String × ℚ) :=
  (genre_keys tbl).map fun g =>
    (g, ((tbl.filter fun r => decide (r.genre = g)).map (·.globalSales)).sum)

/-- The recoverable error of an extremum aggregate on zero rows (pandas raises
`ValueError` from `idxmax` on an empty series). -/
inductive AggError
  | noData
deriving DecidableEq, Repr

/-- `Series.idxmax`: the first key attaining the maximum value; on an empty
series it signals instead of returning. -/
def series_idxmax : List (String × ℚ) → Except AggError String
  | [] => .error .noData
  | p :: rest => .ok (rest.foldl (fun best c => if best.2 < c.2 then c else best) p).1

/-- The "Top Genre" aggregate of `app.main`:
`filtered_df.groupby('Genre')['Global_Sales'].sum().idxmax()`. -/
def top_genre (tbl : List Row) : Except AggError String :=
  series_idxmax (sum_sales_by_genre tbl)

/-- What `app.main`'s Key Insights column renders for "Top Genre": the genre
name on success; on any exception the enclosing handler prints an error
banner instead. -/
def key_insights_top_genre (tbl : List Row) : String :=
  match top_genre tbl with
  | .ok g => g
  | .error _ => "Error loading data"

/-- The "Top Game" metric of `app.main`, the one aggregate guarded by an
explicit emptiness check: `... if not filtered_df.empty else "N/A"`. -/
def top_game_metric (tbl : List Row) : String :=
  match tbl with
  | [] => "N/A"
  | r :: rest =>
    (rest.foldl (fun best c => if best.globalSales < c.globalSales then c else best) r).name

/-- The sort key of the pattern classifier:
`sort_values(['Year', 'Global_Sales'], ascending=[True, False])`. -/
def relYearSales (a b : Row) : Prop :=
  a.year < b.year ∨ (a.year = b.year ∧ b.globalSales ≤ a.globalSales)

instance : DecidableRel relYearSales :=
  fun a b =>
    inferInstanceAs
      (Decidable (a.year < b.year ∨ (a.year = b.year ∧ b.globalSales ≤ a.globalSales)))

instance : IsTotal Row relYearSales where
  total a b := by
    unfold relYearSales
    rcases lt_trichotomy a.year b.year with h | h | h
    · exact Or.inl (Or.inl h)
    · rcases le_total b.globalSales a.globalSales with hs | hs
      · exact Or.inl (Or.inr ⟨h, hs⟩)
      · exact Or.inr (Or.inr ⟨h.symm, hs⟩)
    · exact Or.inr (Or.inl h)

instance : IsTrans Row relYearSales where
  trans a b c hab hbc := by
    unfold relYearSales at *
    rcases hab with h1 | ⟨h1, s1⟩
    · rcases hbc with h2 | ⟨h2, _⟩
      · exact Or.inl (h1.trans h2)
      · exact Or.inl (h2 ▸ h1)
    · rcases hbc with h2 | ⟨h2, s2⟩
      · exact Or.inl (h1 ▸ h2)
      · exact Or.inr ⟨h1.trans h2, s2.trans s1⟩

/-- The group rows sorted by `(Year asc, Global_Sales desc)`. -/
def sortedReleases (g : List Row) : List Row := g.insertionSort relYearSales

/-- The pattern bucket of `create_sales_evolution_analysis` (strict `>` at
both thresholds). -/
def viz_classify (r : ℚ) : String :=
  if 3/5 < r then "Long-term Success"
  else if 3/10 < r then "Balanced Performance"
  else "Front-loaded"

/-- The pattern bucket of the insight loop in `app.main` (same thresholds,
spelled `'Balanced'`). -/
def app_classify (r : ℚ) : String :=
  if 3/5 < r then "Long-term Success"
  else if 3/10 < r then "Balanced"
  else "Front-loaded"

/-- The three pattern categories, independent of the display spelling. -/
inductive Pattern
  | frontLoaded
  | balanced
  | longTermSuccess
deriving DecidableEq, Repr

/-- The category a pattern string denotes (both spellings of the middle
bucket map to `balanced`). -/
def patternCategory : String → Option Pattern
  | "Front-loaded" => some .frontLoaded
  | "Balanced" => some .balanced
  | "Balanced Performance" => some .balanced
  | "Long-term Success" => some .longTermSuccess
  | _ => none

/-- One record of `create_sales_evolution_analysis`'s `game_analysis`. -/
structure EvoRecord where
  name : String
  launchSales : ℚ
  longTermSales : ℚ
  totalSales : ℚ
  longTailRat : ℚ
  pattern : String
  launchYear : ℤ
  genre : String
  publisher : String
deriving DecidableEq, Repr

/-- The distinct game names in ascending key order (pandas
`groupby('Name')`). -/
def group_names (tbl : List Row) : List String :=
  ((tbl.map (·.name)).dedup).insertionSort strLeP

/-- The `game_analysis` entry of `create_sales_evolution_analysis` for one
game name (`none` for single-release games). -/
def evoForName (tbl : List Row) (n : String) : Option EvoRecord :=
  let g := tbl.filter fun r => decide (r.name = n)
  if 1 < g.length then
    match sortedReleases g with
    | [] => none
    | launch :: rest =>
      let launchS := launch.globalSales
      let ltS := (rest.map (·.globalSales)).sum
      let total := launchS + ltS
      let rat := if 0 < total then ltS / total else 0
      some
        { name := n, launchSales := launchS, longTermSales := ltS, totalSales := total
          longTailRat := rat, pattern := viz_classify rat, launchYear := launch.year
          genre := launch.genre, publisher := launch.publisher }
  else none

/-- The per-game analysis of `create_sales_evolution_analysis`. -/
def sales_evolution_records (tbl : List Row) : List EvoRecord :=
  (group_names tbl).filterMap (evoForName tbl)

/-- One record of `create_launch_vs_longterm_comparison`'s
`pattern_analysis`. -/
structure CompRecord where
  name : String
  genre : String
  launchSales : ℚ
  longTermSales : ℚ
  longTailRat : ℚ
  totalSales : ℚ
deriving DecidableEq, Repr

/-- The `pattern_analysis` entry of `create_launch_vs_longterm_comparison` for
one game name: identical computation, but a group with non-positive total is
skipped instead of recorded with a zero share. -/
def compForName (tbl : List Row) (n : String) : Option CompRecord :=
  let g := tbl.filter fun r => decide (r.name = n)
  if 1 < g.length then
    match sortedReleases g with
    | [] => none
    | launch :: rest =>
      let launchS := launch.globalSales
      let ltS := (rest.map (·.globalSales)).sum
      let total := launchS + ltS
      if 0 < total then
        some
          { name := n, genre := launch.genre, launchSales := launchS
            longTermSales := ltS, longTailRat := ltS / total, totalSales := total }
      else none
  else none

/-- The per-game loop of `create_launch_vs_longterm_comparison`. -/
def launch_vs_longterm_records (tbl : List Row) : List CompRecord :=
  (group_names tbl).filterMap (compForName tbl)

/-- The pattern label the insight loop of `app.main` appends for one game
name (groups with non-positive total are skipped silently). -/
def appPatternForName (tbl : List Row) (n : String) : Option String :=
  let g := tbl.filter fun r => decide (r.name = n)
  if 1 < g.length then
    match sortedReleases g with
    | [] => none
    | launch :: rest =>
      let launchS := launch.globalSales
      let ltS := (rest.map (·.globalSales)).sum
      let total := launchS + ltS
      if 0 < total then some (app_classify (ltS / total)) else none
  else none

/-- `pattern_games` of the insight loop in `app.main`. -/
def app_pattern_games (tbl : List Row) : List String :=
  (group_names tbl).filterMap (appPatternForName tbl)

/-- pandas `Series.median`: middle element of the sorted values, or the mean
of the two middle elements. -/
def medianQ (l : List ℚ) : ℚ :=
  let s := l.insertionSort (· ≤ ·)
  if s.length % 2 = 1 then s.getD (s.length / 2) 0
  else (s.getD (s.length / 2 - 1) 0 + s.getD (s.length / 2) 0) / 2

/-- The fallback count of `app.main`'s first insight column: games exceeding
2x the median of `Global_Sales`.  On an empty table the pandas median is NaN
and every comparison with it is false, so the count is `0`. -/
def high_impact_count (tbl : List Row) : ℕ :=
  if tbl.isEmpty then 0
  else
    (tbl.filter fun r =>
        decide (medianQ (tbl.map (·.globalSales)) * 2 < r.globalSales)).length

/-- Distinct elements in order of first occurrence (`collections.Counter`
insertion order). -/
def firstOccurrences (l : List String) : List String :=
  l.foldl (fun acc s => if s ∈ acc then acc else acc ++ [s]) []

/-- Multiplicity of `s` in `l`. -/
def countOf (l : List String) (s : String) : ℕ :=
  (l.filter fun x => decide (x = s)).length

/-- `Counter(l).most_common(1)[0]`: the element with the largest count, ties
broken by first occurrence. -/
def most_common_one (l : List String) : String × ℕ :=
  match firstOccurrences l with
  | [] => ("", 0)
  | d :: ds =>
    ds.foldl (fun best c => if best.2 < countOf l c then (c, countOf l c) else best)
      (d, countOf l d)

/-- The rendered result of `app.main`'s first Sales Evolution insight
column. -/
inductive Insight
  | mostCommonPattern (pat : String) (count : ℕ)
  | highImpact (count : ℕ)
deriving DecidableEq, Repr

/-- `app.main`'s first insight column: the most common multi-release pattern
when any exists, otherwise the separate single-release fallback path. -/
def app_insight_col1 (tbl : List Row) : Insight :=
  let pats := app_pattern_games tbl
  if pats.isEmpty then .highImpact (high_impact_count tbl)
  else .mostCommonPattern (most_common_one pats).1 (most_common_one pats).2

/-! ### Concrete inputs used by witnesses and counterexamples -/

/-- A well-formed raw row whose four regional sales are equal quarters of
`Global_Sales`. -/
def rawQuarters : RawRow :=
  { rank := none, name := some "X", platform := some "P", year := some 2000
    genre := some "G", publisher := some "U", naSales := some 1, euSales := some 1
    jpSales := some 1, otherSales := some 1, globalSales := some 4 }

/-- A raw row whose `NA_Sales` exceeds `Global_Sales`; it survives cleaning
untouched. -/
def rawOver : RawRow :=
  { rank := none, name := some "X", platform := some "P", year := some 2000
    genre := some "G", publisher := some "U", naSales := some 5, euSales := some 0
    jpSales := some 0, otherSales := some 0, globalSales := some 2 }

/-- A raw row dropped by the `Year >= 1980` filter. -/
def rawOld : RawRow :=
  { rank := none, name := some "Y", platform := some "P", year := some 1975
    genre := some "G", publisher := some "U", naSales := some 0, euSales := some 0
    jpSales := some 0, otherSales := some 0, globalSales := some 1 }

def gameA1 : Row :=
  { rank := none, name := "Game A", platform := "P1", year := 2000, genre := "G",
    publisher := "U", naSales := 0, euSales := 0, jpSales := 0, otherSales := 0,
    globalSales := 3 }

def gameA2 : Row :=
  { rank := none, name := "Game A", platform := "P2", year := 2005, genre := "G",
    publisher := "U", naSales := 0, euSales := 0, jpSales := 0, otherSales := 0,
    globalSales := 7 }

/-- Boundary game: launch 4, long-term 6, share exactly `3/5`. -/
def gameB1 : Row :=
  { rank := none, name := "Game B", platform := "P1", year := 2000, genre := "G",
    publisher := "U", naSales := 0, euSales := 0, jpSales := 0, otherSales := 0,
    globalSales := 4 }

def gameB2 : Row :=
  { rank := none, name := "Game B", platform := "P2", year := 2005, genre := "G",
    publisher := "U", naSales := 0, euSales := 0, jpSales := 0, otherSales := 0,
    globalSales := 6 }

/-- Boundary game: launch 7, long-term 3, share exactly `3/10`. -/
def gameF1 : Row :=
  { rank := none, name := "Game F", platform := "P1", year := 2000, genre := "G",
    publisher := "U", naSales := 0, euSales := 0, jpSales := 0, otherSales := 0,
    globalSales := 7 }

def gameF2 : Row :=
  { rank := none, name := "Game F", platform := "P2", year := 2005, genre := "G",
    publisher := "U", naSales := 0, euSales := 0, jpSales := 0, otherSales := 0,
    globalSales := 3 }

/-- A row with an exact NA/EU tie for the dominant-region tie-break. -/
def rowTie : Row :=
  { rank := none, name := "T", platform := "P", year := 2000, genre := "G",
    publisher := "U", naSales := 5, euSales := 5, jpSales := 0, otherSales := 0,
    globalSales := 10 }

/-- Three single-release rows of one genre/platform with sales 10, 10, 5,
the dense-ranking example of the spec. -/
def rankRow1 : Row :=
  { rank := none, name := "R1", platform := "P", year := 2000, genre := "G",
    publisher := "U", naSales := 0, euSales := 0, jpSales := 0, otherSales := 0,
    globalSales := 10 }

def rankRow2 : Row :=
  { rank := none, name := "R2", platform := "P", year := 2001, genre := "G",
    publisher := "U", naSales := 0, euSales := 0, jpSales := 0, otherSales := 0,
    globalSales := 10 }

def rankRow3 : Row :=
  { rank := none, name := "R3", platform := "P", year := 2002, genre := "G",
    publisher := "U", naSales := 0, euSales := 0, jpSales := 0, otherSales := 0,
    globalSales := 5 }

/-! ### Helper lemmas -/

/-- Membership in the cleaned table, unfolded through the sort and the row
filters. -/
theorem mem_clean_data_iff (raw : List RawRow) (r : Row) :
    r ∈ clean_data raw ↔
      (∃ r0 ∈ raw, r0.name.isSome = true ∧ r0.globalSales.isSome = true ∧
          repairRow r0 = r) ∧
        1980 ≤ r.year ∧ 0 < r.globalSales := by
  unfold clean_data
  rw [List.mem_insertionSort]
  simp only [List.mem_filter, List.mem_map, decide_eq_true_eq, Bool.and_eq_true]
  tauto

theorem clean_global_pos {raw : List RawRow} {r : Row} (h : r ∈ clean_data raw) :
    0 < r.globalSales :=
  ((mem_clean_data_iff raw r).1 h).2.2

theorem mem_add_derived_iff (tbl : List Row) (d : DerivedRow) :
    d ∈ add_derived_columns tbl ↔ ∃ r ∈ tbl, deriveRow tbl r = d := by
  unfold add_derived_columns
  simp [List.mem_map]

theorem deriveRow_row (tbl : List Row) (r : Row) : (deriveRow tbl r).row = r := rfl

/-- The half-even integer rounding is within `1/2` of its argument. -/
theorem rhe_close (q : ℚ) : |(rhe q : ℚ) - q| ≤ 1/2 := by
  have h0 : ((⌊q⌋ : ℤ) : ℚ) ≤ q := Int.floor_le q
  have h1 : q < (⌊q⌋ : ℚ) + 1 := Int.lt_floor_add_one q
  unfold rhe
  split_ifs with hf hg he <;> (rw [abs_le]; push_cast; constructor <;> linarith)

theorem rhe_nonneg {q : ℚ} (h : 0 ≤ q) : 0 ≤ rhe q := by
  have h0 : 0 ≤ ⌊q⌋ := Int.floor_nonneg.2 h
  unfold rhe
  split_ifs <;> omega

theorem rhe_le_of_le {q : ℚ} {n : ℤ} (h : q ≤ (n : ℚ)) : rhe q ≤ n := by
  have hc : ⌈q⌉ ≤ n := Int.ceil_le.2 h
  have hfc : ⌊q⌋ ≤ ⌈q⌉ := Int.floor_le_ceil q
  unfold rhe
  split_ifs with hf hg he
  · exact hfc.trans hc
  all_goals
    have hlt : ((⌊q⌋ : ℤ) : ℚ) < q := by linarith [Int.floor_le q]
    have : ⌊q⌋ < ⌈q⌉ := by exact_mod_cast hlt.trans_le (Int.le_ceil q)
    omega

/-- Rounding at two decimals moves a value by at most `1/200`. -/
theorem round2_close (q : ℚ) : |round2 q - q| ≤ 1/200 := by
  have h := rhe_close (q * 100)
  rw [abs_le] at h ⊢
  unfold round2
  constructor <;> [linarith [h.1]; linarith [h.2]]

theorem round2_nonneg {q : ℚ} (h : 0 ≤ q) : 0 ≤ round2 q := by
  have := rhe_nonneg (mul_nonneg h (by norm_num : (0:ℚ) ≤ 100))
  unfold round2
  positivity

theorem round2_le_100 {q : ℚ} (h : q ≤ 100) : round2 q ≤ 100 := by
  have h1 : q * 100 ≤ ((10000 : ℤ) : ℚ) := by push_cast; linarith
  have h2 : rhe (q * 100) ≤ 10000 := rhe_le_of_le h1
  have h3 : ((rhe (q * 100) : ℤ) : ℚ) ≤ 10000 := by exact_mod_cast h2
  unfold round2
  linarith

theorem mem_group_names {tbl : List Row} {n : String} :
    n ∈ group_names tbl ↔ n ∈ tbl.map (·.name) := by
  unfold group_names
  rw [List.mem_insertionSort, List.mem_dedup]

theorem group_names_nodup (tbl : List Row) : (group_names tbl).Nodup :=
  (List.perm_insertionSort strLeP _).nodup_iff.2 (List.nodup_dedup _)

/-- Mapping a left inverse of the producer over a `filterMap` yields a
sublist of the input keys. -/
theorem map_filterMap_sublist {α β : Type} (f : α → Option β) (g : β → α)
    (h : ∀ a b, f a = some b → g b = a) :
    ∀ l : List α, ((l.filterMap f).map g).Sublist l := by
  intro l
  induction l with
  | nil => simp
  | cons a l ih =>
    rw [List.filterMap_cons]
    cases hfa : f a with
    | none => exact ih.cons a
    | some b =>
      rw [List.map_cons, h a b hfa]
      exact ih.cons₂ a

/-! ### C5: empty-table "top genre" aggregate -/

/-- C5 counterexample: on the empty filtered table the aggregate does signal
(no crash, no default), but the presentation layer does not substitute
`"N/A"` — the surrounding exception handler prints an error banner. The
`"N/A"` placeholder in `app.py` guards only the "Top Game" metric. -/
theorem Claim_C5_Counterexample :
    top_genre ([] : List Row) = .error .noData ∧
      key_insights_top_genre ([] : List Row) ≠ "N/A" := by
  constructor
  · rfl
  · intro h
    simp [key_insights_top_genre, top_genre, sum_sales_by_genre, genre_keys,
      List.insertionSort, series_idxmax] at h

/-- C5 (amended): "top genre by sales" on an empty table signals the
no-data error rather than crashing or returning a default; the enclosing
handler renders an error banner (not `"N/A"`); the `"N/A"` placeholder is
applied only to the "Top Game" metric via its explicit emptiness check. -/
theorem Claim_C5 :
    top_genre ([] : List Row) = .error .noData ∧
      key_insights_top_genre ([] : List Row) = "Error loading data" ∧
      top_game_metric ([] : List Row) = "N/A" :=
  ⟨rfl, rfl, rfl⟩

/-! ### C9: dominant region -/

/-- C9: `dominant_region` picks the region of largest absolute sales, ties
broken by the first region attaining the maximum in the fixed order
NA, EU, JP, Other; an exact NA/EU tie resolves to `"North America"`. -/
theorem Claim_C9 :
    (∀ r : Row,
      ((dominant_region r = "North America") ↔
        (r.euSales ≤ r.naSales ∧ r.jpSales ≤ r.naSales ∧ r.otherSales ≤ r.naSales)) ∧
      ((dominant_region r = "Europe") ↔
        (r.naSales < r.euSales ∧ r.jpSales ≤ r.euSales ∧ r.otherSales ≤ r.euSales)) ∧
      ((dominant_region r = "Japan") ↔
        (r.naSales < r.jpSales ∧ r.euSales < r.jpSales ∧ r.otherSales ≤ r.jpSales)) ∧
      ((dominant_region r = "Other") ↔
        (r.naSales < r.otherSales ∧ r.euSales < r.otherSales ∧ r.jpSales < r.otherSales))) ∧
      dominant_region rowTie = "North America" ∧
      rowTie.naSales = rowTie.euSales ∧ rowTie.jpSales = 0 ∧ rowTie.otherSales = 0 := by
  refine ⟨?_, by decide, by decide, by decide, by decide⟩
  intro r
  unfold dominant_region idxmaxRegion
  simp only [List.foldl_cons, List.foldl_nil]
  split_ifs with h1 h2 h3 h4 h5 h6 h7 <;>
    simp only [not_lt] at * <;>
    refine ⟨?_, ?_, ?_, ?_⟩ <;>
    constructor <;>
    intro h <;>
    first
      | rfl
      | (exact absurd h (by decide))
      | (refine ⟨by linarith, by linarith, by linarith⟩)
      | (exfalso; obtain ⟨ha, hb, hc⟩ := h; linarith)

/-! ### C1: cleaning invariant -/

/-- C1: every row of the cleaned table has `global_sales > 0` and
`year >= 1980`, and is the column-repaired image of an input row (rows are
dropped, never repaired into compliance); conversely every repaired input
row satisfying both conditions is retained. -/
theorem Claim_C1 :
    (∀ (raw : List RawRow) (r : Row), r ∈ clean_data raw →
      0 < r.globalSales ∧ 1980 ≤ r.year ∧
        ∃ r0 ∈ raw, r0.name.isSome = true ∧ r0.globalSales.isSome = true ∧
          repairRow r0 = r) ∧
      ∀ (raw : List RawRow) (r0 : RawRow), r0 ∈ raw →
        r0.name.isSome = true → r0.globalSales.isSome = true →
        1980 ≤ (repairRow r0).year → 0 < (repairRow r0).globalSales →
        repairRow r0 ∈ clean_data raw := by
  constructor
  · intro raw r h
    obtain ⟨hex, hy, hg⟩ := (mem_clean_data_iff raw r).1 h
    exact ⟨hg, hy, hex⟩
  · intro raw r0 h0 hn hg hy hpos
    exact (mem_clean_data_iff raw (repairRow r0)).2 ⟨⟨r0, h0, hn, hg, rfl⟩, hy, hpos⟩

/-- C1 witness: a concrete two-row raw table; the 1975 row is dropped and
the surviving row is the repaired quarter row, which satisfies the
invariant. -/
theorem Claim_C1_Witness :
    repairRow rawQuarters ∈ clean_data [rawQuarters, rawOld] ∧
      (0 < (repairRow rawQuarters).globalSales ∧ 1980 ≤ (repairRow rawQuarters).year ∧
        ∃ r0 ∈ [rawQuarters, rawOld], r0.name.isSome = true ∧
          r0.globalSales.isSome = true ∧ repairRow r0 = repairRow rawQuarters) := by
  have hmem : repairRow rawQuarters ∈ clean_data [rawQuarters, rawOld] := by
    norm_num [clean_data, repairRow, truncToInt, List.insertionSort, rawQuarters, rawOld]
  exact ⟨hmem, Claim_C1.1 [rawQuarters, rawOld] (repairRow rawQuarters) hmem⟩

/-! ### Pattern-classifier helpers -/

/-- Characterization of the string produced by the strict-threshold
classifier of `create_sales_evolution_analysis`. -/
theorem viz_classify_spec (x : ℚ) :
    (viz_classify x = "Long-term Success" ↔ 3/5 < x) ∧
      (viz_classify x = "Balanced Performance" ↔ (3/10 < x ∧ x ≤ 3/5)) ∧
      (viz_classify x = "Front-loaded" ↔ x ≤ 3/10) := by
  unfold viz_classify
  split_ifs with h1 h2 <;>
    simp only [not_lt] at * <;>
    refine ⟨?_, ?_, ?_⟩ <;>
    constructor <;>
    intro h <;>
    first
      | trivial
      | (exact absurd h (by decide))
      | linarith

/-- Where a record of `create_sales_evolution_analysis` comes from: a sorted
permutation of the rows sharing its name, with launch/long-term split, share
and pattern computed from that ordering. -/
theorem evo_mem_spec {tbl : List Row} {rec : EvoRecord}
    (h : rec ∈ sales_evolution_records tbl) :
    ∃ s : List Row, s.Perm (tbl.filter fun r => decide (r.name = rec.name)) ∧
      s.Sorted relYearSales ∧ 1 < s.length ∧
      ∃ launch rest, s = launch :: rest ∧
        rec.launchSales = launch.globalSales ∧
        rec.longTermSales = (rest.map (·.globalSales)).sum ∧
        rec.totalSales = rec.launchSales + rec.longTermSales ∧
        rec.longTailRat =
          (if 0 < rec.totalSales then rec.longTermSales / rec.totalSales else 0) ∧
        rec.pattern = viz_classify rec.longTailRat ∧
        rec.launchYear = launch.year ∧ rec.genre = launch.genre ∧
        rec.publisher = launch.publisher := by
  obtain ⟨n, hn, hfn⟩ := List.mem_filterMap.1 h
  simp only [evoForName] at hfn
  by_cases hlen : 1 < (tbl.filter fun r => decide (r.name = n)).length
  · rw [if_pos hlen] at hfn
    cases hs : sortedReleases (tbl.filter fun r => decide (r.name = n)) with
    | nil =>
      exfalso
      have hl : (sortedReleases (tbl.filter fun r => decide (r.name = n))).length
          = (tbl.filter fun r => decide (r.name = n)).length :=
        List.length_insertionSort _ _
      rw [hs] at hl
      simp at hl
      omega
    | cons launch rest =>
      rw [hs] at hfn
      simp only [Option.some.injEq] at hfn
      subst hfn
      refine ⟨launch :: rest, ?_, ?_, ?_, launch, rest, rfl, rfl, rfl, rfl, rfl, rfl,
        rfl, rfl, rfl⟩
      · rw [← hs]
        exact List.perm_insertionSort relYearSales _
      · rw [← hs]
        exact List.sorted_insertionSort relYearSales _
      · have hl : (sortedReleases (tbl.filter fun r => decide (r.name = n))).length
            = (tbl.filter fun r => decide (r.name = n)).length :=
          List.length_insertionSort _ _
        rw [hs] at hl
        simp only [List.length_cons] at hl ⊢
        omega
  · rw [if_neg hlen] at hfn
    exact absurd hfn (by simp)

/-! ### C2: strict thresholds of the pattern classifier -/

/-- C2: the classifier uses strict `>` at both thresholds — share above `3/5`
is Long-term Success, share in `(3/10, 3/5]` is Balanced, share at most
`3/10` is Front-loaded; the `4/6` game (share exactly `3/5`) is Balanced and
the `7/3` game (share exactly `3/10`) is Front-loaded. -/
theorem Claim_C2 :
    (∀ (tbl : List Row) (rec : EvoRecord), rec ∈ sales_evolution_records tbl →
      ((rec.pattern = "Long-term Success" ↔ 3/5 < rec.longTailRat) ∧
        (rec.pattern = "Balanced Performance" ↔
          (3/10 < rec.longTailRat ∧ rec.longTailRat ≤ 3/5)) ∧
        (rec.pattern = "Front-loaded" ↔ rec.longTailRat ≤ 3/10))) ∧
      (sales_evolution_records [gameB1, gameB2]).map (·.pattern)
        = ["Balanced Performance"] ∧
      (sales_evolution_records [gameF1, gameF2]).map (·.pattern) = ["Front-loaded"] := by
  refine ⟨?_, ?_, ?_⟩
  · intro tbl rec h
    obtain ⟨s, _, _, _, launch, rest, _, _, _, _, _, hpat, _⟩ := evo_mem_spec h
    rw [hpat]
    exact viz_classify_spec rec.longTailRat
  · norm_num [sales_evolution_records, group_names, evoForName, sortedReleases,
      List.insertionSort, List.orderedInsert, relYearSales, viz_classify, gameB1, gameB2,
      List.filterMap_cons]
  · norm_num [sales_evolution_records, group_names, evoForName, sortedReleases,
      List.insertionSort, List.orderedInsert, relYearSales, viz_classify, gameF1, gameF2,
      List.filterMap_cons]

/-- The record the classifier produces for the boundary game with launch 4
and long-term 6. -/
def recB : EvoRecord :=
  { name := "Game B", launchSales := 4, longTermSales := 6, totalSales := 10,
    longTailRat := 3/5, pattern := "Balanced Performance", launchYear := 2000,
    genre := "G", publisher := "U" }

/-- C2 witness: the boundary record of the `4/6` game is produced by the
classifier and satisfies the threshold characterization. -/
theorem Claim_C2_Witness :
    recB ∈ sales_evolution_records [gameB1, gameB2] ∧
      ((recB.pattern = "Long-term Success" ↔ 3/5 < recB.longTailRat) ∧
        (recB.pattern = "Balanced Performance" ↔
          (3/10 < recB.longTailRat ∧ recB.longTailRat ≤ 3/5)) ∧
        (recB.pattern = "Front-loaded" ↔ recB.longTailRat ≤ 3/10)) := by
  have hmem : recB ∈ sales_evolution_records [gameB1, gameB2] := by
    norm_num [sales_evolution_records, group_names, evoForName, sortedReleases,
      List.insertionSort, List.orderedInsert, relYearSales, viz_classify, gameB1, gameB2,
      recB, List.filterMap_cons]
  exact ⟨hmem, Claim_C2.1 [gameB1, gameB2] recB hmem⟩

theorem evoForName_name {tbl : List Row} {n : String} {rec : EvoRecord}
    (h : evoForName tbl n = some rec) : rec.name = n := by
  simp only [evoForName] at h
  by_cases hlen : 1 < (tbl.filter fun r => decide (r.name = n)).length
  · rw [if_pos hlen] at h
    cases hs : sortedReleases (tbl.filter fun r => decide (r.name = n)) with
    | nil => rw [hs] at h; simp at h
    | cons launch rest =>
      rw [hs] at h
      simp only [Option.some.injEq] at h
      subst h
      rfl
  · rw [if_neg hlen] at h
    simp at h

theorem evoForName_isSome_iff {tbl : List Row} {n : String} :
    (∃ rec, evoForName tbl n = some rec) ↔
      1 < (tbl.filter fun r => decide (r.name = n)).length := by
  constructor
  · rintro ⟨rec, h⟩
    simp only [evoForName] at h
    by_cases hlen : 1 < (tbl.filter fun r => decide (r.name = n)).length
    · exact hlen
    · rw [if_neg hlen] at h
      simp at h
  · intro hlen
    simp only [evoForName]
    rw [if_pos hlen]
    cases hs : sortedReleases (tbl.filter fun r => decide (r.name = n)) with
    | nil =>
      exfalso
      have hl : (sortedReleases (tbl.filter fun r => decide (r.name = n))).length
          = (tbl.filter fun r => decide (r.name = n)).length :=
        List.length_insertionSort _ _
      rw [hs] at hl
      simp at hl
      omega
    | cons launch rest => exact ⟨_, rfl⟩

/-! ### C3: the per-game launch / long-term split -/

/-- C3: every multi-release name yields exactly one record; the record splits
a `(year asc, sales desc)`-sorted permutation of the name's rows into the
first row (launch) and the rest (long-term sum), and the share is
`long_term / (launch + long_term)` (0 when that total is 0); the concrete
two-row "Game A" table produces exactly the expected record. -/
theorem Claim_C3 :
    (∀ (tbl : List Row) (rec : EvoRecord), rec ∈ sales_evolution_records tbl →
      ∃ s : List Row, s.Perm (tbl.filter fun r => decide (r.name = rec.name)) ∧
        s.Sorted relYearSales ∧
        ∃ launch rest, s = launch :: rest ∧
          rec.launchSales = launch.globalSales ∧
          rec.longTermSales = (rest.map (·.globalSales)).sum ∧
          rec.longTailRat =
            (if 0 < rec.launchSales + rec.longTermSales then
              rec.longTermSales / (rec.launchSales + rec.longTermSales)
            else 0)) ∧
      (∀ tbl : List Row, ((sales_evolution_records tbl).map (·.name)).Nodup) ∧
      (∀ (tbl : List Row) (n : String),
        n ∈ (sales_evolution_records tbl).map (·.name) ↔
          1 < (tbl.filter fun r => decide (r.name = n)).length) ∧
      (sales_evolution_records [gameA1, gameA2]).map
          (fun e => (e.name, e.launchSales, e.longTermSales, e.longTailRat, e.pattern))
        = [("Game A", 3, 7, 7/10, "Long-term Success")] := by
  refine ⟨?_, ?_, ?_, ?_⟩
  · intro tbl rec h
    obtain ⟨s, hperm, hsort, _, launch, rest, hcons, h1, h2, h3, h4, _⟩ := evo_mem_spec h
    refine ⟨s, hperm, hsort, launch, rest, hcons, h1, h2, ?_⟩
    rw [h4, h3]
  · intro tbl
    exact (map_filterMap_sublist (evoForName tbl) (·.name)
      (fun n rec h => evoForName_name h) (group_names tbl)).nodup (group_names_nodup tbl)
  · intro tbl n
    constructor
    · intro hmem
      obtain ⟨rec, hrec, hname⟩ := List.mem_map.1 hmem
      obtain ⟨m, _, hfm⟩ := List.mem_filterMap.1 hrec
      have hm : rec.name = m := evoForName_name hfm
      rw [← hname, hm]
      exact evoForName_isSome_iff.1 ⟨rec, hfm⟩
    · intro hlen
      have hpos : 0 < (tbl.filter fun r => decide (r.name = n)).length := by omega
      obtain ⟨r, hr⟩ := List.exists_mem_of_length_pos hpos
      have hr2 := List.mem_filter.1 hr
      have hrn : r.name = n := by simpa using hr2.2
      have hgn : n ∈ group_names tbl :=
        mem_group_names.2 (List.mem_map.2 ⟨r, hr2.1, hrn⟩)
      obtain ⟨rec, hfm⟩ := evoForName_isSome_iff.2 hlen
      exact List.mem_map.2 ⟨rec, List.mem_filterMap.2 ⟨n, hgn, hfm⟩, evoForName_name hfm⟩
  · norm_num [sales_evolution_records, group_names, evoForName, sortedReleases,
      List.insertionSort, List.orderedInsert, relYearSales, viz_classify, gameA1, gameA2,
      List.filterMap_cons]

/-- The record the classifier produces for the two-row "Game A" table. -/
def recA : EvoRecord :=
  { name := "Game A", launchSales := 3, longTermSales := 7, totalSales := 10,
    longTailRat := 7/10, pattern := "Long-term Success", launchYear := 2000,
    genre := "G", publisher := "U" }

/-- C3 witness: the "Game A" record is produced from the concrete two-row
table and admits the sorted launch/long-term decomposition. -/
theorem Claim_C3_Witness :
    recA ∈ sales_evolution_records [gameA1, gameA2] ∧
      ∃ s : List Row,
        s.Perm ([gameA1, gameA2].filter fun r => decide (r.name = recA.name)) ∧
        s.Sorted relYearSales ∧
        ∃ launch rest, s = launch :: rest ∧
          recA.launchSales = launch.globalSales ∧
          recA.longTermSales = (rest.map (·.globalSales)).sum ∧
          recA.longTailRat =
            (if 0 < recA.launchSales + recA.longTermSales then
              recA.longTermSales / (recA.launchSales + recA.longTermSales)
            else 0) := by
  have hmem : recA ∈ sales_evolution_records [gameA1, gameA2] := by
    norm_num [sales_evolution_records, group_names, evoForName, sortedReleases,
      List.insertionSort, List.orderedInsert, relYearSales, viz_classify, gameA1, gameA2,
      recA, List.filterMap_cons]
  exact ⟨hmem, Claim_C3.1 [gameA1, gameA2] recA hmem⟩

/-! ### C4: regional percentage fields -/

/-- C4 counterexample: cleaning does not constrain a region's sales by
`Global_Sales`, so a cleaned row can carry a regional percentage above 100:
the row with `NA_Sales = 5, Global_Sales = 2` survives cleaning and gets
`NA_Percentage = 250`. -/
theorem Claim_C4_Counterexample :
    (add_derived_columns (clean_data [rawOver])).map (·.naPct) = [(250 : ℚ)] ∧
      ¬((250 : ℚ) ≤ 100) := by
  constructor
  · norm_num [add_derived_columns, clean_data, repairRow, truncToInt, rawOver,
      List.insertionSort, deriveRow, round2, rhe]
  · norm_num

/-- C4 (amended): each percentage field equals
`round2 (region / global * 100)`; and, provided the four regional sales are
nonnegative and sum exactly to `Global_Sales` (true of the source dataset but
not enforced by the cleaner), each field lies in `[0, 100]` and the four
fields sum to 100 within the accumulated rounding error `4 * 1/200 = 1/50`. -/
theorem Claim_C4 (raw : List RawRow) (d : DerivedRow)
    (hd : d ∈ add_derived_columns (clean_data raw))
    (hna : 0 ≤ d.row.naSales) (heu : 0 ≤ d.row.euSales) (hjp : 0 ≤ d.row.jpSales)
    (hoth : 0 ≤ d.row.otherSales)
    (hsum : d.row.naSales + d.row.euSales + d.row.jpSales + d.row.otherSales
      = d.row.globalSales) :
    (d.naPct = round2 (d.row.naSales / d.row.globalSales * 100) ∧
      d.euPct = round2 (d.row.euSales / d.row.globalSales * 100) ∧
      d.jpPct = round2 (d.row.jpSales / d.row.globalSales * 100) ∧
      d.otherPct = round2 (d.row.otherSales / d.row.globalSales * 100)) ∧
      (0 ≤ d.naPct ∧ d.naPct ≤ 100) ∧ (0 ≤ d.euPct ∧ d.euPct ≤ 100) ∧
      (0 ≤ d.jpPct ∧ d.jpPct ≤ 100) ∧ (0 ≤ d.otherPct ∧ d.otherPct ≤ 100) ∧
      |d.naPct + d.euPct + d.jpPct + d.otherPct - 100| ≤ 1/50 := by
  obtain ⟨r, hr, hdr⟩ := (mem_add_derived_iff _ d).1 hd
  subst hdr
  have hg : 0 < r.globalSales := clean_global_pos hr
  simp only [deriveRow_row] at hna heu hjp hoth hsum
  have hpct : ∀ v : ℚ, 0 ≤ v → v ≤ r.globalSales →
      0 ≤ round2 (v / r.globalSales * 100) ∧ round2 (v / r.globalSales * 100) ≤ 100 := by
    intro v hv hvg
    have h0 : 0 ≤ v / r.globalSales * 100 :=
      mul_nonneg (div_nonneg hv hg.le) (by norm_num)
    have h1 : v / r.globalSales ≤ 1 := (div_le_one hg).2 hvg
    have h2 : v / r.globalSales * 100 ≤ 100 := by linarith
    exact ⟨round2_nonneg h0, round2_le_100 h2⟩
  have hsum100 : r.naSales / r.globalSales * 100 + r.euSales / r.globalSales * 100
      + r.jpSales / r.globalSales * 100 + r.otherSales / r.globalSales * 100 = 100 := by
    have he : r.naSales / r.globalSales * 100 + r.euSales / r.globalSales * 100
        + r.jpSales / r.globalSales * 100 + r.otherSales / r.globalSales * 100
        = (r.naSales + r.euSales + r.jpSales + r.otherSales) / r.globalSales * 100 := by
      ring
    rw [he, hsum, div_self hg.ne', one_mul]
  have c1 := round2_close (r.naSales / r.globalSales * 100)
  have c2 := round2_close (r.euSales / r.globalSales * 100)
  have c3 := round2_close (r.jpSales / r.globalSales * 100)
  have c4 := round2_close (r.otherSales / r.globalSales * 100)
  rw [abs_le] at c1 c2 c3 c4
  refine ⟨⟨rfl, rfl, rfl, rfl⟩, hpct _ hna (by linarith), hpct _ heu (by linarith),
    hpct _ hjp (by linarith), hpct _ hoth (by linarith), ?_⟩
  show |round2 (r.naSales / r.globalSales * 100) + round2 (r.euSales / r.globalSales * 100)
      + round2 (r.jpSales / r.globalSales * 100)
      + round2 (r.otherSales / r.globalSales * 100) - 100| ≤ 1/50
  rw [abs_le]
  constructor <;> linarith

/-- C4 witness: a cleaned row whose regions are equal quarters of its global
sales; all four percentages are 25 and sum exactly to 100. -/
theorem Claim_C4_Witness :
    (deriveRow (clean_data [rawQuarters]) (repairRow rawQuarters)
        ∈ add_derived_columns (clean_data [rawQuarters]) ∧
      0 ≤ (repairRow rawQuarters).naSales ∧ 0 ≤ (repairRow rawQuarters).euSales ∧
      0 ≤ (repairRow rawQuarters).jpSales ∧ 0 ≤ (repairRow rawQuarters).otherSales ∧
      (repairRow rawQuarters).naSales + (repairRow rawQuarters).euSales
        + (repairRow rawQuarters).jpSales + (repairRow rawQuarters).otherSales
        = (repairRow rawQuarters).globalSales) ∧
      ((deriveRow (clean_data [rawQuarters]) (repairRow rawQuarters)).naPct
          = round2 ((repairRow rawQuarters).naSales
              / (repairRow rawQuarters).globalSales * 100) ∧
        (deriveRow (clean_data [rawQuarters]) (repairRow rawQuarters)).euPct
          = round2 ((repairRow rawQuarters).euSales
              / (repairRow rawQuarters).globalSales * 100) ∧
        (deriveRow (clean_data [rawQuarters]) (repairRow rawQuarters)).jpPct
          = round2 ((repairRow rawQuarters).jpSales
              / (repairRow rawQuarters).globalSales * 100) ∧
        (deriveRow (clean_data [rawQuarters]) (repairRow rawQuarters)).otherPct
          = round2 ((repairRow rawQuarters).otherSales
              / (repairRow rawQuarters).globalSales * 100)) ∧
      (0 ≤ (deriveRow (clean_data [rawQuarters]) (repairRow rawQuarters)).naPct ∧
        (deriveRow (clean_data [rawQuarters]) (repairRow rawQuarters)).naPct ≤ 100) ∧
      (0 ≤ (deriveRow (clean_data [rawQuarters]) (repairRow rawQuarters)).euPct ∧
        (deriveRow (clean_data [rawQuarters]) (repairRow rawQuarters)).euPct ≤ 100) ∧
      (0 ≤ (deriveRow (clean_data [rawQuarters]) (repairRow rawQuarters)).jpPct ∧
        (deriveRow (clean_data [rawQuarters]) (repairRow rawQuarters)).jpPct ≤ 100) ∧
      (0 ≤ (deriveRow (clean_data [rawQuarters]) (repairRow rawQuarters)).otherPct ∧
        (deriveRow (clean_data [rawQuarters]) (repairRow rawQuarters)).otherPct ≤ 100) ∧
      |(deriveRow (clean_data [rawQuarters]) (repairRow rawQuarters)).naPct
          + (deriveRow (clean_data [rawQuarters]) (repairRow rawQuarters)).euPct
          + (deriveRow (clean_data [rawQuarters]) (repairRow rawQuarters)).jpPct
          + (deriveRow (clean_data [rawQuarters]) (repairRow rawQuarters)).otherPct
          - 100| ≤ 1/50 := by
  have hlist : clean_data [rawQuarters] = [repairRow rawQuarters] := by
    norm_num [clean_data, repairRow, truncToInt, rawQuarters, List.insertionSort]
  have hmem : deriveRow (clean_data [rawQuarters]) (repairRow rawQuarters)
      ∈ add_derived_columns (clean_data [rawQuarters]) := by
    rw [add_derived_columns, hlist]
    simp
  have hna : 0 ≤ (repairRow rawQuarters).naSales := by norm_num [repairRow, rawQuarters]
  have heu : 0 ≤ (repairRow rawQuarters).euSales := by norm_num [repairRow, rawQuarters]
  have hjp : 0 ≤ (repairRow rawQuarters).jpSales := by norm_num [repairRow, rawQuarters]
  have hoth : 0 ≤ (repairRow rawQuarters).otherSales := by norm_num [repairRow, rawQuarters]
  have hsum : (repairRow rawQuarters).naSales + (repairRow rawQuarters).euSales
      + (repairRow rawQuarters).jpSales + (repairRow rawQuarters).otherSales
      = (repairRow rawQuarters).globalSales := by norm_num [repairRow, rawQuarters]
  exact ⟨⟨hmem, hna, heu, hjp, hoth, hsum⟩,
    Claim_C4 [rawQuarters] _ hmem hna heu hjp hoth hsum⟩

/-! ### C7: the single-release fallback path -/

/-- C7: when no name has more than one row, the per-game classifier and the
insight loop produce no records (the "insufficient data" signal), and the
app's insight column takes the separate fallback branch counting games whose
sales exceed twice the overall median. -/
theorem Claim_C7 (tbl : List Row)
    (h : ∀ n ∈ tbl.map (·.name), (tbl.filter fun r => decide (r.name = n)).length ≤ 1)
    (hne : tbl ≠ []) :
    sales_evolution_records tbl = [] ∧
      app_pattern_games tbl = [] ∧
      app_insight_col1 tbl
        = .highImpact ((tbl.filter fun r =>
            decide (medianQ (tbl.map (·.globalSales)) * 2 < r.globalSales)).length) := by
  have h1 : sales_evolution_records tbl = [] := by
    apply List.filterMap_eq_nil_iff.2
    intro n hn
    have hlen := h n (mem_group_names.1 hn)
    simp only [evoForName]
    rw [if_neg (by omega)]
  have h2 : app_pattern_games tbl = [] := by
    apply List.filterMap_eq_nil_iff.2
    intro n hn
    have hlen := h n (mem_group_names.1 hn)
    simp only [appPatternForName]
    rw [if_neg (by omega)]
  refine ⟨h1, h2, ?_⟩
  have hempty : tbl.isEmpty = false := by
    cases tbl with
    | nil => exact absurd rfl hne
    | cons a l => rfl
  simp only [app_insight_col1, h2, List.isEmpty_nil, if_pos, high_impact_count, hempty,
    Bool.false_eq_true, if_false, if_true]

/-- C7 witness: a table of two distinct single-release games takes the
fallback path. -/
theorem Claim_C7_Witness :
    ((∀ n ∈ [gameA1, gameB1].map (·.name),
        ([gameA1, gameB1].filter fun r => decide (r.name = n)).length ≤ 1) ∧
      [gameA1, gameB1] ≠ []) ∧
      (sales_evolution_records [gameA1, gameB1] = [] ∧
        app_pattern_games [gameA1, gameB1] = [] ∧
        app_insight_col1 [gameA1, gameB1]
          = .highImpact (([gameA1, gameB1].filter fun r =>
              decide (medianQ ([gameA1, gameB1].map (·.globalSales)) * 2
                < r.globalSales)).length)) := by
  have hh : ∀ n ∈ [gameA1, gameB1].map (·.name),
      ([gameA1, gameB1].filter fun r => decide (r.name = n)).length ≤ 1 := by decide
  have hne : [gameA1, gameB1] ≠ [] := by simp
  exact ⟨⟨hh, hne⟩, Claim_C7 [gameA1, gameB1] hh hne⟩

/-! ### C10: the three duplicated launch / long-term computations -/

theorem total_pos_aux {tbl : List Row} (hpos : ∀ r ∈ tbl, 0 < r.globalSales)
    {n : String} {launch : Row} {rest : List Row}
    (hs : sortedReleases (tbl.filter fun r => decide (r.name = n)) = launch :: rest) :
    0 < launch.globalSales + (rest.map (·.globalSales)).sum := by
  have hsub : ∀ x ∈ launch :: rest, x ∈ tbl := by
    intro x hx
    have hx2 : x ∈ sortedReleases (tbl.filter fun r => decide (r.name = n)) := by
      rw [hs]
      exact hx
    rw [sortedReleases, List.mem_insertionSort] at hx2
    exact (List.mem_filter.1 hx2).1
  have hl : 0 < launch.globalSales := hpos _ (hsub _ (List.mem_cons_self _ _))
  have hr : 0 ≤ (rest.map (·.globalSales)).sum := by
    apply List.sum_nonneg
    intro x hx
    obtain ⟨r, hrr, rfl⟩ := List.mem_map.1 hx
    exact (hpos r (hsub r (List.mem_cons_of_mem _ hrr))).le
  linarith

/-- C10: when every row has positive `Global_Sales`, the three duplicated
computations agree on launch sales, long-term sales and long-tail share for
every multi-release game, and the two pattern spellings denote the same
category. -/
theorem Claim_C10 (tbl : List Row) (hpos : ∀ r ∈ tbl, 0 < r.globalSales) :
    (launch_vs_longterm_records tbl).map
        (fun c => (c.name, c.launchSales, c.longTermSales, c.longTailRat))
      = (sales_evolution_records tbl).map
        (fun e => (e.name, e.launchSales, e.longTermSales, e.longTailRat)) ∧
      app_pattern_games tbl
        = (sales_evolution_records tbl).map (fun e => app_classify e.longTailRat) ∧
      ∀ x : ℚ, patternCategory (app_classify x) = patternCategory (viz_classify x) := by
  refine ⟨?_, ?_, ?_⟩
  · rw [launch_vs_longterm_records, sales_evolution_records, List.map_filterMap,
      List.map_filterMap]
    apply List.filterMap_congr
    intro n hn
    simp only [compForName, evoForName]
    by_cases hlen : 1 < (tbl.filter fun r => decide (r.name = n)).length
    · rw [if_pos hlen, if_pos hlen]
      cases hs : sortedReleases (tbl.filter fun r => decide (r.name = n)) with
      | nil => rfl
      | cons launch rest =>
        have htot := total_pos_aux hpos hs
        simp only [htot, if_true, Option.map_some']
    · rw [if_neg hlen, if_neg hlen]
      rfl
  · rw [app_pattern_games, sales_evolution_records, List.map_filterMap]
    apply List.filterMap_congr
    intro n hn
    simp only [appPatternForName, evoForName]
    by_cases hlen : 1 < (tbl.filter fun r => decide (r.name = n)).length
    · rw [if_pos hlen, if_pos hlen]
      cases hs : sortedReleases (tbl.filter fun r => decide (r.name = n)) with
      | nil => rfl
      | cons launch rest =>
        have htot := total_pos_aux hpos hs
        simp only [htot, if_true, Option.map_some']
    · rw [if_neg hlen, if_neg hlen]
      rfl
  · intro x
    unfold app_classify viz_classify patternCategory
    split_ifs <;> rfl

/-- C10 witness: the two-row "Game A" table with positive sales. -/
theorem Claim_C10_Witness :
    (∀ r ∈ [gameA1, gameA2], 0 < r.globalSales) ∧
      ((launch_vs_longterm_records [gameA1, gameA2]).map
          (fun c => (c.name, c.launchSales, c.longTermSales, c.longTailRat))
        = (sales_evolution_records [gameA1, gameA2]).map
          (fun e => (e.name, e.launchSales, e.longTermSales, e.longTailRat)) ∧
        app_pattern_games [gameA1, gameA2]
          = (sales_evolution_records [gameA1, gameA2]).map
            (fun e => app_classify e.longTailRat) ∧
        ∀ x : ℚ, patternCategory (app_classify x) = patternCategory (viz_classify x)) := by
  have hpos : ∀ r ∈ [gameA1, gameA2], 0 < r.globalSales := by decide
  exact ⟨hpos, Claim_C10 [gameA1, gameA2] hpos⟩

/-! ### C8: dense ranking -/

theorem filter_dedup_length (vals : List ℚ) (p : ℚ → Bool) :
    ((vals.filter p).dedup).length = (vals.toFinset.filter (p ·)).card :=
  (List.card_toFinset _).symm.trans (congrArg Finset.card (List.toFinset_filter vals p))

/-- Among the values, a strictly smaller value gets a strictly larger
descending dense rank. -/
theorem denseRankDesc_strict {vals : List ℚ} {x y : ℚ} (hx : x ∈ vals) (hyx : y < x) :
    denseRankDesc vals x < denseRankDesc vals y := by
  unfold denseRankDesc
  have hsub : vals.toFinset.filter (fun v => decide (x < v))
      ⊂ vals.toFinset.filter (fun v => decide (y < v)) := by
    rw [Finset.ssubset_iff_of_subset]
    · refine ⟨x, ?_, ?_⟩
      · simp only [Finset.mem_filter, List.mem_toFinset, decide_eq_true_eq]
        exact ⟨hx, hyx⟩
      · simp only [Finset.mem_filter, List.mem_toFinset, decide_eq_true_eq, not_and]
        intro _
        exact lt_irrefl x
    · intro v hv
      simp only [Finset.mem_filter, List.mem_toFinset, decide_eq_true_eq] at hv ⊢
      exact ⟨hv.1, hyx.trans hv.2⟩
  have hcard := Finset.card_lt_card hsub
  rw [filter_dedup_length, filter_dedup_length]
  omega

/-- Dense-rank step: if `x` is present, `y < x`, and no value lies strictly
between them, the rank of `y` is exactly one more than the rank of `x` (no
gaps). -/
theorem denseRankDesc_step {vals : List ℚ} {x y : ℚ} (hx : x ∈ vals) (hyx : y < x)
    (hno : ∀ v ∈ vals, ¬(y < v ∧ v < x)) :
    denseRankDesc vals y = denseRankDesc vals x + 1 := by
  unfold denseRankDesc
  rw [filter_dedup_length, filter_dedup_length]
  have hset : vals.toFinset.filter (fun v => decide (y < v))
      = insert x (vals.toFinset.filter (fun v => decide (x < v))) := by
    ext v
    simp only [Finset.mem_filter, Finset.mem_insert, List.mem_toFinset, decide_eq_true_eq]
    constructor
    · rintro ⟨hv, hyv⟩
      rcases lt_or_le v x with hvx | hxv
      · exact absurd ⟨hyv, hvx⟩ (hno v hv)
      · rcases eq_or_lt_of_le hxv with heq | hlt
        · exact Or.inl heq.symm
        · exact Or.inr ⟨hv, hlt⟩
    · rintro (rfl | ⟨hv, hxv⟩)
      · exact ⟨hx, hyx⟩
      · exact ⟨hv, hyx.trans hxv⟩
  rw [hset, Finset.card_insert_of_not_mem]
  simp only [Finset.mem_filter, List.mem_toFinset, decide_eq_true_eq, not_and]
  intro _
  exact lt_irrefl x

/-- C8: `genre_rank`/`platform_rank` are dense ranks — 1-based, strictly
increasing as `Global_Sales` decreases within the group, equal sales share a
rank, adjacent distinct values differ by exactly 1 — and the `[10, 10, 5]`
group ranks `[1, 1, 2]`. -/
theorem Claim_C8 :
    (∀ (tbl : List Row) (r : Row),
      1 ≤ (deriveRow tbl r).genreRank ∧ 1 ≤ (deriveRow tbl r).platformRank) ∧
      (∀ (tbl : List Row) (r1 r2 : Row), r1.genre = r2.genre →
        r1.globalSales = r2.globalSales →
        (deriveRow tbl r1).genreRank = (deriveRow tbl r2).genreRank) ∧
      (∀ (tbl : List Row) (r1 r2 : Row), r1 ∈ tbl → r1.genre = r2.genre →
        r2.globalSales < r1.globalSales →
        (deriveRow tbl r1).genreRank < (deriveRow tbl r2).genreRank) ∧
      (∀ (tbl : List Row) (r1 r2 : Row), r1 ∈ tbl → r1.genre = r2.genre →
        r2.globalSales < r1.globalSales →
        (∀ r3 ∈ tbl, r3.genre = r1.genre →
          ¬(r2.globalSales < r3.globalSales ∧ r3.globalSales < r1.globalSales)) →
        (deriveRow tbl r2).genreRank = (deriveRow tbl r1).genreRank + 1) ∧
      (∀ (tbl : List Row) (r1 r2 : Row), r1 ∈ tbl → r1.platform = r2.platform →
        r2.globalSales < r1.globalSales →
        (∀ r3 ∈ tbl, r3.platform = r1.platform →
          ¬(r2.globalSales < r3.globalSales ∧ r3.globalSales < r1.globalSales)) →
        (deriveRow tbl r2).platformRank = (deriveRow tbl r1).platformRank + 1) ∧
      (add_derived_columns [rankRow1, rankRow2, rankRow3]).map (·.genreRank)
        = [1, 1, 2] ∧
      (add_derived_columns [rankRow1, rankRow2, rankRow3]).map (·.platformRank)
        = [1, 1, 2] := by
  refine ⟨?_, ?_, ?_, ?_, ?_, ?_, ?_⟩
  · intro tbl r
    constructor <;> simp [deriveRow, denseRankDesc]
  · intro tbl r1 r2 hg hs
    simp only [deriveRow]
    rw [hg, hs]
  · intro tbl r1 r2 h1 hg hs
    simp only [deriveRow]
    rw [hg]
    have hx : r1.globalSales
        ∈ (tbl.filter fun x => decide (x.genre = r2.genre)).map (·.globalSales) :=
      List.mem_map.2 ⟨r1, List.mem_filter.2 ⟨h1, by simp [hg]⟩, rfl⟩
    exact denseRankDesc_strict hx hs
  · intro tbl r1 r2 h1 hg hs hno
    simp only [deriveRow]
    rw [hg]
    have hx : r1.globalSales
        ∈ (tbl.filter fun x => decide (x.genre = r2.genre)).map (·.globalSales) :=
      List.mem_map.2 ⟨r1, List.mem_filter.2 ⟨h1, by simp [hg]⟩, rfl⟩
    apply denseRankDesc_step hx hs
    intro v hv
    obtain ⟨r3, hr3, rfl⟩ := List.mem_map.1 hv
    have hr3f := List.mem_filter.1 hr3
    have hr3g : r3.genre = r1.genre := by
      have := hr3f.2
      simp only [decide_eq_true_eq] at this
      rw [this, hg]
    exact hno r3 hr3f.1 hr3g
  · intro tbl r1 r2 h1 hg hs hno
    simp only [deriveRow]
    rw [hg]
    have hx : r1.globalSales
        ∈ (tbl.filter fun x => decide (x.platform = r2.platform)).map (·.globalSales) :=
      List.mem_map.2 ⟨r1, List.mem_filter.2 ⟨h1, by simp [hg]⟩, rfl⟩
    apply denseRankDesc_step hx hs
    intro v hv
    obtain ⟨r3, hr3, rfl⟩ := List.mem_map.1 hv
    have hr3f := List.mem_filter.1 hr3
    have hr3g : r3.platform = r1.platform := by
      have := hr3f.2
      simp only [decide_eq_true_eq] at this
      rw [this, hg]
    exact hno r3 hr3f.1 hr3g
  · norm_num [add_derived_columns, deriveRow, denseRankDesc, rankRow1, rankRow2, rankRow3,
      List.dedup_cons_of_mem, List.dedup_cons_of_not_mem]
  · norm_num [add_derived_columns, deriveRow, denseRankDesc, rankRow1, rankRow2, rankRow3,
      List.dedup_cons_of_mem, List.dedup_cons_of_not_mem]

/-- C8 witness: in the `[10, 10, 5]` group the rank of the 5-sales row is one
more than the rank of a 10-sales row. -/
theorem Claim_C8_Witness :
    (rankRow1 ∈ [rankRow1, rankRow2, rankRow3] ∧
      rankRow1.genre = rankRow3.genre ∧
      rankRow3.globalSales < rankRow1.globalSales ∧
      (∀ r3 ∈ [rankRow1, rankRow2, rankRow3], r3.genre = rankRow1.genre →
        ¬(rankRow3.globalSales < r3.globalSales ∧
          r3.globalSales < rankRow1.globalSales))) ∧
      (deriveRow [rankRow1, rankRow2, rankRow3] rankRow3).genreRank
        = (deriveRow [rankRow1, rankRow2, rankRow3] rankRow1).genreRank + 1 := by
  have hmem : rankRow1 ∈ [rankRow1, rankRow2, rankRow3] := by decide
  have hg : rankRow1.genre = rankRow3.genre := by decide
  have hs : rankRow3.globalSales < rankRow1.globalSales := by decide
  have hno : ∀ r3 ∈ [rankRow1, rankRow2, rankRow3], r3.genre = rankRow1.genre →
      ¬(rankRow3.globalSales < r3.globalSales ∧
        r3.globalSales < rankRow1.globalSales) := by decide
  exact ⟨⟨hmem, hg, hs, hno⟩,
    Claim_C8.2.2.2.1 [rankRow1, rankRow2, rankRow3] rankRow1 rankRow3 hmem hg hs hno⟩

end VG
